import Mathlib

/-!
Verification of the jasper process-lifecycle core (`basicProcess` and its
thread-safety wrapper `localProcess`) against its natural-language
specification.  The Go source is shallowly embedded: nil pointers become
`Option` (dereferencing `none` is a Go panic, surfaced as a `none` result of
the embedded operation), `map[string]struct` key sets become duplicate-free
lists, slices become lists, and the goroutine/channel nondeterminism of the
`Wait` protocol is made explicit through a schedule parameter.
-/

set_option autoImplicit false

namespace Jasper

/-- Embeds `os.ProcessState`, the exit information that `cmd.Wait()` captures:
`exited` mirrors `ProcessState.Exited()`, `success` mirrors
`ProcessState.Success()` (exit status zero). -/
structure ProcState where
  exited : Bool
  success : Bool
  deriving DecidableEq, Repr

/-- Embeds the `os.Process` handle held by an `exec.Cmd`; `pid` mirrors the
`Process.Pid` field, which keeps its value after the process exits and which
the Go code compares against the sentinel `-1`. -/
structure OsProc where
  pid : Int
  deriving DecidableEq, Repr

/-- Embeds `exec.Cmd`.  In Go, `cmd.Process` is a nil pointer until `Start`
succeeds (it stays nil when `Start` fails, e.g. for a nonexistent executable)
and `cmd.ProcessState` is a nil pointer until `cmd.Wait()` returns.  Nil is
modelled as `none`. -/
structure Cmd where
  process : Option OsProc
  processState : Option ProcState
  deriving DecidableEq, Repr

/-- Value of the Go condition
`c.ProcessState != nil && c.ProcessState.Exited()`. -/
def Cmd.stateExited (c : Cmd) : Bool :=
  match c.processState with
  | some ps => ps.exited
  | none => false

/-- Value of the Go condition
`c.ProcessState != nil && !c.ProcessState.Exited()`. -/
def Cmd.stateNonExited (c : Cmd) : Bool :=
  match c.processState with
  | some ps => !ps.exited
  | none => false

/-- Embeds `basicProcess`: `optsTags` is the ordered slice `opts.Tags` carried
by the copied `CreateOptions`, `tags` is the key set of the
`map[string]struct` tag map (a Go map cannot hold a key twice, so the list
representing it is duplicate-free in every reachable state), and `triggers` is
the registered `ProcessTriggerSequence`, with triggers identified by opaque
numbers. -/
structure basicProcess where
  id : String
  hostname : String
  optsTags : List String
  cmd : Option Cmd
  tags : List String
  triggers : List Nat
  deriving DecidableEq, Repr

/-- Embeds `basicProcess.Complete`.  The Go body returns `false` for a nil
`cmd`, returns `true` when a captured `ProcessState` reports `Exited()`, and
otherwise returns `p.cmd.Process.Pid == -1`; that last read dereferences
`cmd.Process`, which is a nil-pointer panic (result `none`) whenever `Start`
failed and left `cmd.Process` nil. -/
def basicProcess.Complete (p : basicProcess) : Option Bool :=
  match p.cmd with
  | none => some false
  | some c =>
    if c.stateExited then some true
    else
      match c.process with
      | some pr => some (pr.pid == -1)
      | none => none

/-- Embeds `basicProcess.Running`: `false` when `cmd` or `cmd.Process` is nil;
`true` when a captured state has `Exited()` false; `false` when the stored pid
is negative; `true` otherwise (the source comment: a viable pid means it is
probably running). -/
def basicProcess.Running (p : basicProcess) : Bool :=
  match p.cmd with
  | none => false
  | some c =>
    match c.process with
    | none => false
    | some pr =>
      if c.stateNonExited then true
      else if pr.pid < 0 then false
      else true

/-- Evidence that `Running` keeps reporting a live process: the handle stores a
non-negative pid, or a captured `ProcessState` does not report `Exited()`. -/
def basicProcess.liveEvidence (p : basicProcess) : Bool :=
  match p.cmd with
  | none => false
  | some c =>
    (match c.process with
     | some pr => decide (0 ≤ pr.pid)
     | none => false) || c.stateNonExited

/-- A process that ran to completion: `Wait` captured an exit status with
`Exited()` true, and the handle still stores its (non-negative) pid, exactly
as Go leaves it after the child exits. -/
def exitedProc : basicProcess :=
  { id := "p1", hostname := "host", optsTags := [], tags := [], triggers := [],
    cmd := some { process := some { pid := 5 },
                  processState := some { exited := true, success := true } } }

/-- Embeds `basicProcess.Tag`: a no-op when the tag is already a key of the
map; otherwise inserts the key and appends the tag to the ordered slice
`p.opts.Tags`. -/
def basicProcess.Tag (p : basicProcess) (t : String) : basicProcess :=
  if t ∈ p.tags then p
  else { p with tags := p.tags ++ [t], optsTags := p.optsTags ++ [t] }

/-- Embeds `basicProcess.ResetTags`: replaces the map with a fresh empty map
and the ordered slice with a fresh empty slice. -/
def basicProcess.ResetTags (p : basicProcess) : basicProcess :=
  { p with tags := [], optsTags := [] }

/-- Embeds `basicProcess.GetTags`: iterates the keys of the tag map into a
fresh slice.  Go map iteration order is unspecified; the model returns the
keys in insertion order, one valid iteration order. -/
def basicProcess.GetTags (p : basicProcess) : List String :=
  p.tags

/-- Embeds `newBasicProcess` after the external `opts.Resolve(ctx)` call and
the (error-ignored) `cmd.Start()`: the resulting `Cmd` handle is a parameter,
as are the generated uuid and the queried hostname.  The `CreateOptions` value
is copied into the process (its `Tags` slice starts as `optsTags0`), the tag
map starts empty, and then `p.Tag(t)` runs for each element of the original
`opts.Tags`. -/
def newBasicProcess (id hostname : String) (cmd : Cmd) (optsTags0 : List String) :
    basicProcess :=
  let p0 : basicProcess :=
    { id := id, hostname := hostname, optsTags := optsTags0,
      cmd := some cmd, tags := [], triggers := [] }
  optsTags0.foldl basicProcess.Tag p0

/-- Go error values as the pkg/errors package builds them, kept as structured
terms so that wrapping is visible: `exitErr` is an error returned by
`cmd.Wait()` for an abnormal exit, `ctxCanceled` is `ctx.Err()` of a canceled
context, `newErr` is `errors.New`, `withStack` is the annotation
`errors.WithStack` adds, and `wrap` is `errors.Wrap`. -/
inductive GoErr
  | exitErr (msg : String)
  | ctxCanceled
  | newErr (msg : String)
  | withStack (e : GoErr)
  | wrap (e : GoErr) (msg : String)
  deriving DecidableEq

/-- Embeds `errors.WithStack` on a possibly-nil error: nil stays nil, a
non-nil error gains a stack annotation. -/
def withStackO : Option GoErr → Option GoErr
  | none => none
  | some e => some (.withStack e)

/-- The string `Error()` renders: `withStack` delegates to the wrapped error,
`wrap` prepends its message and a separator. -/
def GoErr.render : GoErr → String
  | .exitErr m => m
  | .ctxCanceled => "context canceled"
  | .newErr m => m
  | .withStack e => e.render
  | .wrap e m => m ++ ": " ++ e.render

/-- The error `errors.Cause` recovers by unwrapping all annotations. -/
def GoErr.cause : GoErr → GoErr
  | .withStack e => e.cause
  | .wrap e _ => e.cause
  | e => e

/-- An error is a cancellation report when it is (an annotation of) the
context error or the literal message `Wait` builds on observing `ctx.Done`. -/
def GoErr.isCancellation : GoErr → Bool
  | .ctxCanceled => true
  | .newErr m => m == "context canceled while waiting for process to exit"
  | .withStack e => e.isCancellation
  | _ => false

/-- An error reports a genuine process exit when its cause is an error
returned by the OS-level wait. -/
def GoErr.isExit : GoErr → Bool
  | .exitErr _ => true
  | .withStack e => e.isExit
  | .wrap e _ => e.isExit
  | _ => false

/-- Embeds `basicProcess.RegisterTrigger`.  The Go guard is
`if p.cmd != nil || p.cmd.Process.Pid == -1`: for a non-nil `cmd` the first
disjunct is already true and the call returns the error unconditionally; for
a nil `cmd` the second disjunct dereferences the nil `p.cmd`, a panic
(`none`).  The nil-trigger check and the append are unreachable. -/
def basicProcess.RegisterTrigger (p : basicProcess) (trigger : Option Nat) :
    Option (Option GoErr × basicProcess) :=
  match p.cmd with
  | some _ => some (some (.newErr "cannot register trigger for complete project"), p)
  | none => none

/-- Embeds the `ProcessInfo` snapshot: `optsTags` stands for the embedded
part of the copied `CreateOptions` (its `Tags` slice).  Go zero values give
`successful := false` and `pid := 0` before the conditional assignments. -/
structure ProcessInfo where
  id : String
  optsTags : List String
  host : String
  complete : Bool
  isRunning : Bool
  successful : Bool
  pid : Int
  deriving DecidableEq

/-- Embeds `basicProcess.Info`: builds the snapshot from `Complete` and
`Running` (a panic in `Complete` propagates), then, if complete, reads
`p.cmd.ProcessState.Success()` — a nil-pointer panic when no exit status was
captured — and sets the pid sentinel `-1`; then, if running, overwrites the
pid with the live `p.cmd.Process.Pid`. -/
def basicProcess.Info (p : basicProcess) : Option ProcessInfo :=
  match p.Complete with
  | none => none
  | some comp =>
    let run := p.Running
    let info0 : ProcessInfo :=
      { id := p.id, optsTags := p.optsTags, host := p.hostname,
        complete := comp, isRunning := run, successful := false, pid := 0 }
    let step1 : Option ProcessInfo :=
      if comp then
        match p.cmd with
        | some c =>
          match c.processState with
          | some ps => some { info0 with successful := ps.success, pid := -1 }
          | none => none
        | none => none
      else some info0
    match step1 with
    | none => none
    | some info1 =>
      if run then
        match p.cmd with
        | some c =>
          match c.process with
          | some pr => some { info1 with pid := pr.pid }
          | none => none
        | none => none
      else some info1

/-- The outcome of the OS-level `p.cmd.Wait()` call: the `ProcessState` it
stores into the handle and the error it returns (nil for a clean exit). -/
structure OsWaitOutcome where
  ps : ProcState
  err : Option String
  deriving DecidableEq

/-- State of the handle after `p.cmd.Wait()` returned: the captured
`ProcessState` is stored into the `Cmd`. -/
def afterOsWait (p : basicProcess) (o : OsWaitOutcome) : basicProcess :=
  { p with cmd := p.cmd.map fun c => { c with processState := some o.ps } }

/-- Resolution of the nondeterminism in `basicProcess.Wait`.  The background
waiter blocks in `p.cmd.Wait()` (the send value of its select is evaluated on
entry) and then races the hand-off against `ctx.Done`; the calling goroutine
selects between the hand-off channel and `ctx.Done`.  `exitDelivered` is the
natural outcome: the OS result crosses the channel; the rendezvous then lets
the trigger run (in the waiter) and the return (in the caller) proceed
concurrently, and `retBeforeTriggers` records which finishes first.
`ctxErrDelivered` is the race where the waiter hands `ctx.Err()` over;
`cancelObserved` is the caller seeing `ctx.Done` directly.  The two
cancellation outcomes exist only when the context is canceled. -/
inductive WaitSchedule
  | exitDelivered (retBeforeTriggers : Bool)
  | ctxErrDelivered
  | cancelObserved
  deriving DecidableEq

/-- Whether the schedule is the natural-exit outcome (the OS wait result is
received by the caller). -/
def WaitSchedule.isNatural : WaitSchedule → Bool
  | .exitDelivered _ => true
  | _ => false

/-- Which schedules the runtime can realise given whether the context passed
to `Wait` is (eventually) canceled: both cancellation outcomes require a
canceled context. -/
def WaitSchedule.allowed (canceled : Bool) : WaitSchedule → Bool
  | .exitDelivered _ => true
  | .ctxErrDelivered => canceled
  | .cancelObserved => canceled

/-- Observable record of one `Wait` call: the returned error, the triggers
that fired (in firing order, by registered identity), the snapshot they were
passed, whether the trigger run finished before `Wait` returned, every signal
the protocol itself sent to the process (`Wait` sends none), and the process
state at the moment `Wait` returns. -/
structure WaitRun where
  result : Option GoErr
  fired : List Nat
  firedArg : Option ProcessInfo
  firedBeforeReturn : Bool
  signalsSent : List Int
  finalProc : basicProcess
  deriving DecidableEq

/-- The immediate-return record of `Wait`: nil error, no triggers, no
signals, state untouched. -/
def waitImmediate (p : basicProcess) : WaitRun :=
  { result := none, fired := [], firedArg := none, firedBeforeReturn := false,
    signalsSent := [], finalProc := p }

/-- Whether `Wait` reaches its blocking protocol: Go returns nil immediately
when `cmd` or `cmd.Process` is nil, or when a captured `ProcessState` already
reports `Exited()`. -/
def basicProcess.waitBlocks (p : basicProcess) : Bool :=
  match p.cmd with
  | none => false
  | some c =>
    match c.process with
    | none => false
    | some _ => !c.stateExited

/-- Embeds `basicProcess.Wait`.  The early returns mirror the two leading
`if` statements.  In the blocking protocol, the natural outcome hands the OS
result over (returned through `errors.WithStack`), runs
`p.triggers.Run(p.Info(ctx))` in the background waiter after the hand-off —
`ProcessTriggerSequence.Run` is not part of the embedded sources; modelled
from the spec: triggers run in registration order, each exactly once, with
the snapshot — while the caller returns; each cancellation outcome returns
its error without running any trigger.  `Wait` never signals or kills the
process, but the waiter evaluates `p.cmd.Wait()` on entering its select, so
the `ctx.Err()` hand-off can only happen after the OS wait has returned and
stored the captured `ProcessState` into the handle — that mutation is
therefore visible (via the synchronizing hand-off) when `Wait` returns on
the `ctxErrDelivered` path; on the `cancelObserved` path the caller returns
through `ctx.Done` with no hand-off, so no synchronized mutation of the
handle is visible at return (the waiter may still be blocked in the OS
wait). -/
def basicProcess.Wait (p : basicProcess) (o : OsWaitOutcome) (sched : WaitSchedule) :
    WaitRun :=
  match p.cmd with
  | none => waitImmediate p
  | some c =>
    match c.process with
    | none => waitImmediate p
    | some _ =>
      if c.stateExited then waitImmediate p
      else
        match sched with
        | .exitDelivered retFirst =>
          let p1 := afterOsWait p o
          { result := withStackO (o.err.map GoErr.exitErr)
            fired := p.triggers
            firedArg := p1.Info
            firedBeforeReturn := !retFirst
            signalsSent := []
            finalProc := p1 }
        | .ctxErrDelivered =>
          { result := withStackO (some .ctxCanceled), fired := [], firedArg := none,
            firedBeforeReturn := false, signalsSent := [], finalProc := afterOsWait p o }
        | .cancelObserved =>
          { result := some (.newErr "context canceled while waiting for process to exit"),
            fired := [], firedArg := none, firedBeforeReturn := false,
            signalsSent := [], finalProc := p }

/-- Interface record for the polymorphic `Process` capability: one state type
and one function per operation, with the same shapes as the `basicProcess`
embedding (mutating operations return the new state). -/
structure ProcessOps (σ : Type) where
  idFn : σ → String
  infoFn : σ → Option ProcessInfo
  runningFn : σ → Bool
  completeFn : σ → Option Bool
  signalFn : σ → Int → Option GoErr × σ
  tagFn : σ → String → σ
  resetTagsFn : σ → σ
  getTagsFn : σ → List String
  registerTriggerFn : σ → Option Nat → Option (Option GoErr × σ)
  waitFn : σ → OsWaitOutcome → WaitSchedule → Option GoErr × σ

/-- Embeds `localProcess.ID`: read-lock, delegate, read-unlock.  Locking has
no observable effect in the sequential embedding. -/
def localProcess.ID {σ : Type} (ops : ProcessOps σ) (s : σ) : String :=
  ops.idFn s

/-- Embeds `localProcess.Info`: read-lock and delegate. -/
def localProcess.Info {σ : Type} (ops : ProcessOps σ) (s : σ) : Option ProcessInfo :=
  ops.infoFn s

/-- Embeds `localProcess.Running`: read-lock and delegate. -/
def localProcess.Running {σ : Type} (ops : ProcessOps σ) (s : σ) : Bool :=
  ops.runningFn s

/-- Embeds `localProcess.Complete`: read-lock and delegate. -/
def localProcess.Complete {σ : Type} (ops : ProcessOps σ) (s : σ) : Option Bool :=
  ops.completeFn s

/-- Embeds `localProcess.Signal`: write-lock, delegate, and return the
delegate's error through `errors.WithStack`. -/
def localProcess.Signal {σ : Type} (ops : ProcessOps σ) (s : σ) (sig : Int) :
    Option GoErr × σ :=
  let r := ops.signalFn s sig
  (withStackO r.1, r.2)

/-- Embeds `localProcess.Tag`: write-lock and delegate. -/
def localProcess.Tag {σ : Type} (ops : ProcessOps σ) (s : σ) (t : String) : σ :=
  ops.tagFn s t

/-- Embeds `localProcess.ResetTags`: write-lock and delegate. -/
def localProcess.ResetTags {σ : Type} (ops : ProcessOps σ) (s : σ) : σ :=
  ops.resetTagsFn s

/-- Embeds `localProcess.GetTags`: read-lock and delegate. -/
def localProcess.GetTags {σ : Type} (ops : ProcessOps σ) (s : σ) : List String :=
  ops.getTagsFn s

/-- Embeds `localProcess.RegisterTrigger`: write-lock, delegate, and return
the delegate's error through `errors.WithStack`; a panic in the delegate
propagates. -/
def localProcess.RegisterTrigger {σ : Type} (ops : ProcessOps σ) (s : σ)
    (trigger : Option Nat) : Option (Option GoErr × σ) :=
  (ops.registerTriggerFn s trigger).map fun r => (withStackO r.1, r.2)

/-- Embeds `localProcess.Wait`: write-lock, delegate, and return the
delegate's error through `errors.WithStack`. -/
def localProcess.Wait {σ : Type} (ops : ProcessOps σ) (s : σ) (o : OsWaitOutcome)
    (sched : WaitSchedule) : Option GoErr × σ :=
  let r := ops.waitFn s o sched
  (withStackO r.1, r.2)

/-- Observable equality of possibly-nil Go errors: both nil, or both non-nil
with the same rendered message and the same `errors.Cause`. -/
def sameObservableErr : Option GoErr → Option GoErr → Prop
  | none, none => True
  | some a, some b => a.render = b.render ∧ a.cause = b.cause
  | _, _ => False

/-- Observable equality of the `(error, state-kept)` outcome of a call that
can also panic (`none` is the panic): panics agree, and returned errors agree
observably. -/
def sameObservableErrP : Option (Option GoErr) → Option (Option GoErr) → Prop
  | none, none => True
  | some a, some b => sameObservableErr a b
  | _, _ => False

/-- One bookkeeping call on the tag structures: `Tag` with a string, or
`ResetTags`. -/
inductive TagOp
  | tag (t : String)
  | reset
  deriving DecidableEq

/-- Runs a sequence of `Tag` and `ResetTags` calls on a process. -/
def applyTagOps (ops : List TagOp) (p : basicProcess) : basicProcess :=
  ops.foldl (fun q op =>
    match op with
    | .tag t => q.Tag t
    | .reset => q.ResetTags) p

/-- Mutual consistency of the two tag structures: the map keys and the
ordered slice are duplicate-free and hold exactly the same tags. -/
def tagConsistent (p : basicProcess) : Prop :=
  p.tags.Nodup ∧ p.optsTags.Nodup ∧ ∀ t, t ∈ p.tags ↔ t ∈ p.optsTags

/-- A started, not yet waited-on process: live pid, no captured exit
status. -/
def startedProc : basicProcess :=
  { id := "p2", hostname := "host", optsTags := [], tags := [], triggers := [],
    cmd := some { process := some { pid := 5 }, processState := none } }

/-- A process whose `cmd.Start()` failed (nonexistent executable): Go leaves
`cmd.Process` and `cmd.ProcessState` nil; construction itself succeeds. -/
def startFailedProc : basicProcess :=
  newBasicProcess "p3" "host3" { process := none, processState := none } []

/-- A process constructed from options that already carry the tag
`alpha`. -/
def taggedFromOpts : basicProcess :=
  newBasicProcess "p4" "host4" { process := some { pid := 7 }, processState := none }
    ["alpha"]

/-- A started process with two registered triggers, identified 1 and 2 in
registration order. -/
def startedTwoTriggers : basicProcess :=
  { id := "p6", hostname := "host", optsTags := [], tags := [], triggers := [1, 2],
    cmd := some { process := some { pid := 9 }, processState := none } }

/-- The OS wait outcome of a clean exit: status captured with `Exited()` and
`Success()` true, nil error returned. -/
def cleanExit : OsWaitOutcome :=
  { ps := { exited := true, success := true }, err := none }

/-- The snapshot `Info` actually builds for `exitedProc`. -/
def c8info : ProcessInfo :=
  { id := "p1", optsTags := [], host := "host",
    complete := true, isRunning := true, successful := true, pid := 5 }

theorem stateNonExited_false_of_stateExited (c : Cmd) (h : c.stateExited = true) :
    c.stateNonExited = false := by
  unfold Cmd.stateExited Cmd.stateNonExited at *
  cases hps : c.processState <;> simp_all

theorem sameObservableErr_withStackO (x : Option GoErr) :
    sameObservableErr (withStackO x) x := by
  cases x with
  | none => trivial
  | some e => exact ⟨rfl, rfl⟩

theorem tagConsistent_Tag (p : basicProcess) (t : String) (h : tagConsistent p) :
    tagConsistent (p.Tag t) := by
  unfold tagConsistent at *
  obtain ⟨h1, h2, h3⟩ := h
  unfold basicProcess.Tag
  split
  · exact ⟨h1, h2, h3⟩
  · rename_i hmem
    have hmem2 : t ∉ p.optsTags := fun hx => hmem ((h3 t).mpr hx)
    refine ⟨?_, ?_, ?_⟩
    · simp [List.nodup_append, h1, hmem]
    · simp [List.nodup_append, h2, hmem2]
    · intro u
      simp only [List.mem_append, List.mem_singleton]
      constructor
      · rintro (hu | hu)
        · exact Or.inl ((h3 u).mp hu)
        · exact Or.inr hu
      · rintro (hu | hu)
        · exact Or.inl ((h3 u).mpr hu)
        · exact Or.inr hu

theorem tagConsistent_ResetTags (p : basicProcess) : tagConsistent (p.ResetTags) := by
  unfold tagConsistent basicProcess.ResetTags
  exact ⟨List.nodup_nil, List.nodup_nil, fun t => by simp⟩

theorem tagConsistent_applyTagOps (ops : List TagOp) :
    ∀ p : basicProcess, tagConsistent p → tagConsistent (applyTagOps ops p) := by
  induction ops with
  | nil => intro p h; exact h
  | cons op ops ih =>
    intro p h
    cases op with
    | tag t => exact ih _ (tagConsistent_Tag p t h)
    | reset => exact ih _ (tagConsistent_ResetTags p)

theorem tagsNodup_Tag (p : basicProcess) (t : String) (h : p.tags.Nodup) :
    (p.Tag t).tags.Nodup := by
  unfold basicProcess.Tag
  split
  · exact h
  · rename_i hmem
    simp [List.nodup_append, h, hmem]

theorem tagsNodup_foldlTag (ts : List String) :
    ∀ p : basicProcess, p.tags.Nodup → (ts.foldl basicProcess.Tag p).tags.Nodup := by
  induction ts with
  | nil => intro p h; exact h
  | cons a ts ih => intro p h; exact ih _ (tagsNodup_Tag p a h)

theorem tagsNodup_newBasicProcess (i h : String) (c : Cmd) (ts0 : List String) :
    (newBasicProcess i h c ts0).tags.Nodup := by
  unfold newBasicProcess
  exact tagsNodup_foldlTag ts0 _ List.nodup_nil

theorem tagsNodup_applyTagOps (ops : List TagOp) :
    ∀ p : basicProcess, p.tags.Nodup → (applyTagOps ops p).tags.Nodup := by
  induction ops with
  | nil => intro p h; exact h
  | cons op ops ih =>
    intro p h
    cases op with
    | tag t => exact ih _ (tagsNodup_Tag p t h)
    | reset => exact ih _ List.nodup_nil

/-- C4: the tag membership set and the ordered tag sequence stay mutually
consistent after any sequence of `Tag` and `ResetTags` calls — but only for a
process constructed from options carrying no tags.  Construction from options
that already carry a tag breaks the invariant at once: the constructor copies
the options (keeping the original sequence) and then calls `Tag` on each
original tag, which appends it to the sequence a second time. -/
theorem C4_counterexample :
    "alpha" ∈ taggedFromOpts.tags ∧ taggedFromOpts.optsTags.count "alpha" = 2 := by
  decide

/-- C4 (amended): for every basicProcess constructed from options carrying no
tags, the tag membership set and the ordered tag sequence of the options stay
mutually consistent after any sequence of `Tag` and `ResetTags` calls: both
are duplicate-free and hold exactly the same tags. -/
theorem C4_amended_tag_invariant (i h : String) (c : Cmd) (ops : List TagOp) :
    tagConsistent (applyTagOps ops (newBasicProcess i h c [])) := by
  apply tagConsistent_applyTagOps
  unfold newBasicProcess tagConsistent
  exact ⟨List.nodup_nil, List.nodup_nil, fun t => by simp⟩

/-- C5: `Tag` is idempotent — tagging twice with the same tag leaves exactly
the state of tagging once. -/
theorem C5_tag_idempotent (p : basicProcess) (t : String) :
    (p.Tag t).Tag t = p.Tag t := by
  by_cases h : t ∈ p.tags <;> simp [basicProcess.Tag, h]

/-- C10: `GetTags` returns each distinct tag of the membership set exactly
once (count one for members, zero for non-members), in every state reachable
by construction — even from options whose ordered tag sequence carries
duplicates — followed by any sequence of `Tag` and `ResetTags` calls. -/
theorem C10_gettags_distinct (i h : String) (c : Cmd) (ts0 : List String)
    (ops : List TagOp) (t : String) :
    (applyTagOps ops (newBasicProcess i h c ts0)).GetTags.count t =
      if t ∈ (applyTagOps ops (newBasicProcess i h c ts0)).tags then 1 else 0 := by
  have hnd : (applyTagOps ops (newBasicProcess i h c ts0)).tags.Nodup :=
    tagsNodup_applyTagOps ops _ (tagsNodup_newBasicProcess i h c ts0)
  unfold basicProcess.GetTags
  split
  · rename_i hmem
    exact List.count_eq_one_of_mem hnd hmem
  · rename_i hmem
    exact List.count_eq_zero.mpr hmem

/-- C1: the claim `Complete true implies Running false` fails on the code at
a process whose captured exit status reports it has exited while the handle
still stores its non-negative pid — exactly the state the claim singles out —
because `Running` falls through its exited-state check to the viable-pid
check and returns true. -/
theorem C1_counterexample :
    exitedProc.Complete = some true ∧ exitedProc.Running = true := by
  decide

/-- C1 (amended): when `Complete` returns true, `Running` returns true
exactly when the handle still stores a non-negative pid or a captured state
that does not report exit; so `Complete` implies not `Running` only in the
invalid-pid-sentinel situations, and a process whose captured exit status
reports it has exited with a non-negative stored pid is simultaneously
complete and running. -/
theorem C1_amended_complete_running (p : basicProcess) (h : p.Complete = some true) :
    p.Running = p.liveEvidence := by
  unfold basicProcess.Complete at h
  unfold basicProcess.Running basicProcess.liveEvidence
  cases hc : p.cmd with
  | none => simp [hc] at h
  | some c =>
    simp only [hc] at h ⊢
    cases hpr : c.process with
    | none =>
      simp only [hpr] at h ⊢
      cases hse : c.stateExited with
      | true => simp [stateNonExited_false_of_stateExited c hse]
      | false => simp [hse] at h
    | some pr =>
      simp only [hpr] at h ⊢
      cases hse : c.stateExited with
      | true =>
        simp only [stateNonExited_false_of_stateExited c hse, Bool.false_eq_true,
          if_false, Bool.or_false]
        rcases lt_or_ge pr.pid 0 with hlt | hge
        · simp [hlt, not_le.mpr hlt]
        · simp [not_lt.mpr hge, hge]
      | false =>
        simp only [hse, Bool.false_eq_true, if_false] at h
        have hpid : pr.pid = -1 := by simpa using h
        cases hsn : c.stateNonExited with
        | true => simp [hsn, hpid]
        | false => simp [hsn, hpid]

theorem C1_amended_witness :
    exitedProc.Complete = some true ∧ exitedProc.Running = exitedProc.liveEvidence :=
  ⟨by decide, C1_amended_complete_running exitedProc (by decide)⟩

/-- C2 (code bug): the guard of `RegisterTrigger` uses a disjunction whose
first arm is `p.cmd != nil`, so every process with a resolved command —
including `startedProc`, which is running and not complete — gets the
terminal-state error for any trigger, nil or not; the append never runs. -/
theorem C2_register_always_errors :
    startedProc.Complete = some false ∧ startedProc.Running = true ∧
    startedProc.RegisterTrigger (some 7) =
      some (some (.newErr "cannot register trigger for complete project"), startedProc) := by
  refine ⟨by decide, by decide, rfl⟩

/-- C3 (code bug): after a failed `Start` the handle keeps a nil
`cmd.Process`; construction still succeeds (the model builds the process) and
`Wait` does return immediately with no error and fires nothing, but
`Complete` dereferences the nil `cmd.Process` and panics (`none`) instead of
reporting true through the invalid-pid sentinel. -/
theorem C3_start_failure (o : OsWaitOutcome) (sched : WaitSchedule) :
    startFailedProc.Complete = none ∧
    (startFailedProc.Wait o sched).result = none ∧
    (startFailedProc.Wait o sched).fired = [] ∧
    (startFailedProc.Wait o sched).finalProc = startFailedProc := by
  exact ⟨rfl, rfl, rfl, rfl⟩

/-- C6: the claim that every registered trigger has already been invoked
before `Wait` returns fails on the code: the background waiter runs the
triggers only after the channel hand-off, concurrently with the caller's
return, so the schedule in which the caller returns first is a natural-exit
run whose `Wait` result is the received nil exit error while the trigger run
has not yet happened at return time. -/
theorem C6_counterexample :
    (startedTwoTriggers.Wait cleanExit (.exitDelivered true)).result = none ∧
    (startedTwoTriggers.Wait cleanExit (.exitDelivered true)).fired = [1, 2] ∧
    (startedTwoTriggers.Wait cleanExit (.exitDelivered true)).firedBeforeReturn = false := by
  decide

/-- C6 (amended): in a natural-exit run of the blocking `Wait` protocol every
registered trigger is invoked exactly once, in registration order, with the
snapshot of the process after the exit was captured — though possibly only
after `Wait` has already returned; in every other run (early return or
cancellation outcome) no trigger fires, and no operation other than `Wait`
ever invokes triggers. -/
theorem C6_amended_trigger_firing (p : basicProcess) (o : OsWaitOutcome)
    (sched : WaitSchedule) :
    (p.Wait o sched).fired =
      (if p.waitBlocks && sched.isNatural then p.triggers else []) ∧
    (p.Wait o sched).firedArg =
      (if p.waitBlocks && sched.isNatural then (afterOsWait p o).Info else none) := by
  unfold basicProcess.Wait basicProcess.waitBlocks WaitSchedule.isNatural
  cases hc : p.cmd with
  | none => simp [waitImmediate]
  | some c =>
    cases hpr : c.process with
    | none => simp [hpr, waitImmediate]
    | some pr =>
      cases hse : c.stateExited with
      | true => simp [hpr, hse, waitImmediate]
      | false =>
        cases sched with
        | exitDelivered rf => simp [hpr, hse]
        | ctxErrDelivered => simp [hpr, hse]
        | cancelObserved => simp [hpr, hse]

/-- C7: when the blocking `Wait` protocol resolves to either cancellation
outcome — outcomes the runtime can only pick when the context was canceled
before the exit result was received — `Wait` returns a non-nil error that is
a cancellation report and not a process exit error, fires no trigger and
sends no signal to the process; the process handle at return is untouched on
the `cancelObserved` path (the caller saw `ctx.Done` directly and the waiter
may still be blocked in the OS wait), and on the `ctxErrDelivered` path it
reflects exactly the exit status the OS wait had already captured on its own
before the hand-off — never a kill or a signal by `Wait`. -/
theorem C7_cancellation_outcome (p : basicProcess) (o : OsWaitOutcome)
    (sched : WaitSchedule) (hb : p.waitBlocks = true) (hn : sched.isNatural = false) :
    (∃ e, (p.Wait o sched).result = some e ∧ e.isCancellation = true ∧
      e.isExit = false) ∧
    (p.Wait o sched).fired = [] ∧ (p.Wait o sched).signalsSent = [] ∧
    (sched = .cancelObserved → (p.Wait o sched).finalProc = p) ∧
    (sched = .ctxErrDelivered → (p.Wait o sched).finalProc = afterOsWait p o) ∧
    WaitSchedule.allowed false sched = false := by
  unfold basicProcess.waitBlocks at hb
  unfold WaitSchedule.isNatural at hn
  unfold basicProcess.Wait WaitSchedule.allowed
  cases hc : p.cmd with
  | none => simp [hc] at hb
  | some c =>
    simp only [hc] at hb ⊢
    cases hpr : c.process with
    | none => simp [hpr] at hb
    | some pr =>
      simp only [hpr] at hb ⊢
      have hse : c.stateExited = false := by simpa using hb
      simp only [hse, Bool.false_eq_true, if_false]
      cases sched with
      | exitDelivered rf => simp at hn
      | ctxErrDelivered =>
        refine ⟨⟨.withStack .ctxCanceled, rfl, by decide, by decide⟩, rfl, rfl,
          ?_, fun _ => rfl, rfl⟩
        intro hq; cases hq
      | cancelObserved =>
        refine ⟨⟨.newErr "context canceled while waiting for process to exit", rfl,
          by decide, by decide⟩, rfl, rfl, fun _ => rfl, ?_, rfl⟩
        intro hq; cases hq

theorem C7_cancellation_witness :
    startedTwoTriggers.waitBlocks = true ∧
    WaitSchedule.isNatural .cancelObserved = false ∧
    ((∃ e, (startedTwoTriggers.Wait cleanExit .cancelObserved).result = some e ∧
        e.isCancellation = true ∧ e.isExit = false) ∧
      (startedTwoTriggers.Wait cleanExit .cancelObserved).fired = [] ∧
      (startedTwoTriggers.Wait cleanExit .cancelObserved).signalsSent = [] ∧
      (WaitSchedule.cancelObserved = .cancelObserved →
        (startedTwoTriggers.Wait cleanExit .cancelObserved).finalProc =
          startedTwoTriggers) ∧
      (WaitSchedule.cancelObserved = .ctxErrDelivered →
        (startedTwoTriggers.Wait cleanExit .cancelObserved).finalProc =
          afterOsWait startedTwoTriggers cleanExit) ∧
      WaitSchedule.allowed false .cancelObserved = false) :=
  ⟨by decide, by decide,
    C7_cancellation_outcome startedTwoTriggers cleanExit .cancelObserved (by decide)
      (by decide)⟩

/-- C8: the claim that the snapshot carries the absent-pid sentinel exactly
when the process is complete fails on the code: for the exited process —
complete, yet also reported running through the viable-pid fall-through — the
running branch overwrites the sentinel with the live pid, so the snapshot is
complete with pid 5. -/
theorem C8_counterexample :
    exitedProc.Info = some c8info ∧ c8info.complete = true ∧ c8info.pid ≠ -1 := by
  refine ⟨by decide, rfl, by decide⟩

/-- C8 (amended): whenever `Info` returns a snapshot (it panics instead when
the process is complete but no exit status was captured), the id, options and
host fields are always populated, the complete and running flags are the
values of `Complete` and `Running`, the success flag is copied from the
captured exit status whenever complete, the pid is the absent sentinel `-1`
when complete and not running, and the live OS pid when running — the running
branch overriding the sentinel when both flags are set. -/
theorem C8_amended_info_fields (p : basicProcess) (info : ProcessInfo)
    (h : p.Info = some info) :
    info.id = p.id ∧ info.optsTags = p.optsTags ∧ info.host = p.hostname ∧
    p.Complete = some info.complete ∧ info.isRunning = p.Running ∧
    (info.complete = true → ∃ c ps, p.cmd = some c ∧ c.processState = some ps ∧
      info.successful = ps.success) ∧
    (info.complete = true → info.isRunning = false → info.pid = -1) ∧
    (info.isRunning = true → ∃ c pr, p.cmd = some c ∧ c.process = some pr ∧
      info.pid = pr.pid) := by
  unfold basicProcess.Info at h
  cases hC : p.Complete with
  | none => simp [hC] at h
  | some comp =>
    simp only [hC] at h
    cases comp with
    | false =>
      cases hR : p.Running with
      | false =>
        simp only [hR, Bool.false_eq_true, if_false] at h
        injection h with h
        subst h
        refine ⟨rfl, rfl, rfl, rfl, rfl, ?_, ?_, ?_⟩
        · intro hcomp; simp at hcomp
        · intro hcomp; simp at hcomp
        · intro hrun; simp at hrun
      | true =>
        simp only [hR, if_true, Bool.false_eq_true, if_false] at h
        cases hc : p.cmd with
        | none => simp [hc] at h
        | some c =>
          simp only [hc] at h
          cases hpr : c.process with
          | none => simp [hpr] at h
          | some pr =>
            simp only [hpr] at h
            injection h with h
            subst h
            refine ⟨rfl, rfl, rfl, rfl, rfl, ?_, ?_, ?_⟩
            · intro hcomp; simp at hcomp
            · intro hcomp; simp at hcomp
            · intro _; exact ⟨c, pr, rfl, hpr, rfl⟩
    | true =>
      cases hc : p.cmd with
      | none => simp [hc] at h
      | some c =>
        simp only [hc, if_true] at h
        cases hps : c.processState with
        | none => simp [hps] at h
        | some ps =>
          simp only [hps] at h
          cases hR : p.Running with
          | false =>
            simp only [hR, Bool.false_eq_true, if_false] at h
            injection h with h
            subst h
            refine ⟨rfl, rfl, rfl, rfl, rfl, ?_, ?_, ?_⟩
            · intro _; exact ⟨c, ps, rfl, hps, rfl⟩
            · intro _ _; rfl
            · intro hrun; simp at hrun
          | true =>
            simp only [hR, if_true] at h
            cases hpr : c.process with
            | none => simp [hpr] at h
            | some pr =>
              simp only [hpr] at h
              injection h with h
              subst h
              refine ⟨rfl, rfl, rfl, rfl, rfl, ?_, ?_, ?_⟩
              · intro _; exact ⟨c, ps, rfl, hps, rfl⟩
              · intro _ hrun; simp at hrun
              · intro _; exact ⟨c, pr, rfl, hpr, rfl⟩

theorem C8_amended_witness :
    exitedProc.Info = some c8info ∧
    (c8info.id = exitedProc.id ∧ c8info.optsTags = exitedProc.optsTags ∧
      c8info.host = exitedProc.hostname ∧
      exitedProc.Complete = some c8info.complete ∧
      c8info.isRunning = exitedProc.Running ∧
      (c8info.complete = true → ∃ c ps, exitedProc.cmd = some c ∧
        c.processState = some ps ∧ c8info.successful = ps.success) ∧
      (c8info.complete = true → c8info.isRunning = false → c8info.pid = -1) ∧
      (c8info.isRunning = true → ∃ c pr, exitedProc.cmd = some c ∧
        c.process = some pr ∧ c8info.pid = pr.pid)) :=
  ⟨by decide, C8_amended_info_fields exitedProc c8info (by decide)⟩

/-- C9: the thread-safety wrapper is observably transparent for every
operation of the Process interface: every call returns exactly what the
wrapped implementation returns (the same value, the same next state, the same
panic behaviour), and the errors of `Signal`, `RegisterTrigger` and `Wait`
keep the same nil-ness, rendered message and cause — `errors.WithStack` adds
only a stack annotation. -/
theorem C9_wrapper_transparent {σ : Type} (ops : ProcessOps σ) (s : σ) (t : String)
    (tr : Option Nat) (sig : Int) (o : OsWaitOutcome) (sched : WaitSchedule) :
    localProcess.ID ops s = ops.idFn s ∧
    localProcess.Info ops s = ops.infoFn s ∧
    localProcess.Running ops s = ops.runningFn s ∧
    localProcess.Complete ops s = ops.completeFn s ∧
    localProcess.Tag ops s t = ops.tagFn s t ∧
    localProcess.ResetTags ops s = ops.resetTagsFn s ∧
    localProcess.GetTags ops s = ops.getTagsFn s ∧
    (localProcess.Signal ops s sig).2 = (ops.signalFn s sig).2 ∧
    sameObservableErr (localProcess.Signal ops s sig).1 (ops.signalFn s sig).1 ∧
    (localProcess.RegisterTrigger ops s tr).map Prod.snd =
      (ops.registerTriggerFn s tr).map Prod.snd ∧
    sameObservableErrP ((localProcess.RegisterTrigger ops s tr).map Prod.fst)
      ((ops.registerTriggerFn s tr).map Prod.fst) ∧
    (localProcess.Wait ops s o sched).2 = (ops.waitFn s o sched).2 ∧
    sameObservableErr (localProcess.Wait ops s o sched).1 (ops.waitFn s o sched).1 := by
  refine ⟨rfl, rfl, rfl, rfl, rfl, rfl, rfl, rfl, ?_, ?_, ?_, rfl, ?_⟩
  · exact sameObservableErr_withStackO (ops.signalFn s sig).1
  · cases hr : ops.registerTriggerFn s tr with
    | none => simp [localProcess.RegisterTrigger, hr]
    | some r => simp [localProcess.RegisterTrigger, hr]
  · cases hr : ops.registerTriggerFn s tr with
    | none => simp [localProcess.RegisterTrigger, hr, sameObservableErrP]
    | some r =>
      simp only [localProcess.RegisterTrigger, hr, Option.map_some]
      exact sameObservableErr_withStackO r.1
  · exact sameObservableErr_withStackO (ops.waitFn s o sched).1

end Jasper
